import Mathlib

/-!
# Verification of the Mol-AIR inference core

Shallow embedding of the Mol-AIR repository's inference core:
`src/drl/policy.py` (CategoricalPolicy), `src/train/inference.py`
(the Inference evaluation loop: step assembly, unique-molecule tracking,
aggregation and reporting), and `src/util.py` (the global logger lifecycle
and the SELFIES/SMILES conversion helpers).

Machine floats are modelled by `ℚ`; tensors by lists; fallible Python code
(raising exceptions) by `Except`.  External collaborators (the `metric`
module's `MolMetric`/`canonicalize`, the SELFIES decoder, the categorical
distribution object) are not under `src/`; they are modelled from the
spec's interface contracts and passed in as parameters wherever possible.
-/

namespace MolAir

/-! ## First-occurrence argmax

`pandas.Series.argmax` and the argmax of a categorical distribution both
return the index of the first occurrence of the maximal element.  We define
it once over `List ℚ` and prove its characterising properties.
-/

/-- Index of the first occurrence of the maximum of a list of rationals
(`0` on the empty list).  This is the tie-breaking behaviour of
`pandas.Series.argmax` used at `inference.py:149` and of the argmax of a
categorical distribution over its logits. -/
def idxOfMax : List ℚ → Nat
  | [] => 0
  | x :: xs =>
      let r := idxOfMax xs
      match xs[r]? with
      | none => 0
      | some m => if x < m then r + 1 else 0

theorem idxOfMax_nil : idxOfMax [] = 0 := rfl

theorem idxOfMax_lt (l : List ℚ) (h : l ≠ []) : idxOfMax l < l.length := by
  induction l with
  | nil => exact absurd rfl h
  | cons x xs ih =>
    by_cases hxs : xs = []
    · subst hxs; simp [idxOfMax]
    · have hlt := ih hxs
      have hget : xs[idxOfMax xs]? = some xs[idxOfMax xs] :=
        List.getElem?_eq_getElem hlt
      simp only [idxOfMax, hget, List.length_cons]
      split <;> omega

/-- Every element of the list is at most the element at `idxOfMax`. -/
theorem idxOfMax_is_max (l : List ℚ) (j : Nat) (hj : j < l.length)
    (hm : idxOfMax l < l.length) :
    l[j] ≤ l[idxOfMax l] := by
  induction l generalizing j with
  | nil => exact absurd hj (by simp)
  | cons x xs ih =>
    by_cases hxs : xs = []
    · subst hxs
      have : j = 0 := by simpa using hj
      subst this
      simp [idxOfMax]
    · have hlt : idxOfMax xs < xs.length := idxOfMax_lt xs hxs
      have hget : xs[idxOfMax xs]? = some xs[idxOfMax xs] :=
        List.getElem?_eq_getElem hlt
      by_cases hc : x < xs[idxOfMax xs]
      · have hidx : idxOfMax (x :: xs) = idxOfMax xs + 1 := by
          simp [idxOfMax, hget, hc]
        have hval : (x :: xs)[idxOfMax (x :: xs)] = xs[idxOfMax xs] := by
          simp only [hidx]
          exact List.getElem_cons_succ ..
        rw [hval]
        cases j with
        | zero => simpa using le_of_lt hc
        | succ j =>
          have hj' : j < xs.length := Nat.lt_of_succ_lt_succ hj
          simpa using ih j hj' hlt
      · have hidx : idxOfMax (x :: xs) = 0 := by
          simp [idxOfMax, hget, hc]
        have hval : (x :: xs)[idxOfMax (x :: xs)] = x := by
          simp [hidx]
        rw [hval]
        cases j with
        | zero => simp
        | succ j =>
          have hj' : j < xs.length := Nat.lt_of_succ_lt_succ hj
          have h1 : xs[j] ≤ xs[idxOfMax xs] := ih j hj' hlt
          have h2 : xs[idxOfMax xs] ≤ x := not_lt.mp hc
          simpa using le_trans h1 h2

/-- Strictly before the first-occurrence argmax, every element is strictly
smaller: this is the "ties broken by first occurrence" property. -/
theorem idxOfMax_first (l : List ℚ) (j : Nat) (hj : j < idxOfMax l)
    (hm : idxOfMax l < l.length) :
    l.get ⟨j, Nat.lt_trans hj hm⟩ < l[idxOfMax l] := by
  induction l generalizing j with
  | nil => exact absurd hm (by simp [idxOfMax])
  | cons x xs ih =>
    by_cases hxs : xs = []
    · subst hxs; simp [idxOfMax] at hj
    · have hlt : idxOfMax xs < xs.length := idxOfMax_lt xs hxs
      have hget : xs[idxOfMax xs]? = some xs[idxOfMax xs] :=
        List.getElem?_eq_getElem hlt
      by_cases hc : x < xs[idxOfMax xs]
      · have hidx : idxOfMax (x :: xs) = idxOfMax xs + 1 := by
          simp [idxOfMax, hget, hc]
        have hval : (x :: xs)[idxOfMax (x :: xs)] = xs[idxOfMax xs] := by
          simp only [hidx]
          exact List.getElem_cons_succ ..
        rw [hval]
        rw [hidx] at hj
        cases j with
        | zero => simpa using hc
        | succ j => simpa using ih j (Nat.lt_of_succ_lt_succ hj) hlt
      · have hidx : idxOfMax (x :: xs) = 0 := by
          simp [idxOfMax, hget, hc]
        rw [hidx] at hj
        exact absurd hj (Nat.not_lt_zero j)

/-- `idxOfMax` is invariant under mapping a strictly monotone function over
the list: the ordering comparisons made by the recursion are unchanged. -/
theorem idxOfMax_map_strictMono (f : ℚ → ℚ) (hf : StrictMono f) (l : List ℚ) :
    idxOfMax (l.map f) = idxOfMax l := by
  induction l with
  | nil => rfl
  | cons x xs ih =>
    simp only [List.map_cons, idxOfMax, ih, List.getElem?_map]
    cases hx : xs[idxOfMax xs]? with
    | none => simp
    | some m =>
      simp only [Option.map_some]
      by_cases hc : x < m
      · simp [hc, hf hc]
      · have : ¬ f x < f m := fun hlt => hc (hf.lt_iff_lt.mp hlt)
        simp [hc, this]

/-! ## CategoricalPolicy (`src/drl/policy.py`)

The Python class holds an `nn.Linear(in_features, num_discrete_actions)`
layer and a temperature.  We model the learned linear parameters explicitly
(one weight row and one bias entry per discrete action); the feature vector
and all parameters are rationals.  `CategoricalDist` (from the external
`policy_dist` module) is modelled from the spec as an immutable object
parameterized by its logits; since softmax is strictly monotone, the
distribution's argmax over actions is the argmax of its logits.
-/

/-- Modelled from the spec: the external categorical-distribution object
(`policy_dist.CategoricalDist`), "parameterized by logits", immutable once
constructed. -/
structure CategoricalDist where
  logits : List ℚ
deriving Repr, DecidableEq

/-- The distribution's most likely action: first-occurrence argmax of the
logits (softmax is strictly monotone, so this is also the argmax of the
action probabilities). -/
def CategoricalDist.argmaxAction (d : CategoricalDist) : Nat :=
  idxOfMax d.logits

/-- The learned state of `CategoricalPolicy` (`policy.py:9-29`): the linear
layer's parameters (`weight` has one row per discrete action) and the stored
temperature. -/
structure CategoricalPolicy where
  weight : List (List ℚ)
  bias : List ℚ
  temperature : ℚ
deriving Repr, DecidableEq

/-- Embedding of `CategoricalPolicy.__init__` (`policy.py:10-29`): the body
constructs the linear layer and stores the temperature.  The randomly
initialised linear parameters are taken as arguments.  The Python body
contains no `raise` and no validation of `temperature`, so construction
always succeeds; `Except` is the return type so that a rejected
construction would be expressible. -/
def CategoricalPolicy.init (weight : List (List ℚ)) (bias : List ℚ)
    (temperature : ℚ) : Except String CategoricalPolicy :=
  .ok { weight := weight, bias := bias, temperature := temperature }

/-- Dot product of two rational vectors. -/
def dot (w x : List ℚ) : ℚ := ((w.zip x).map fun p => p.1 * p.2).sum

/-- One application of `nn.Linear`: for each output row, `⟨w_i, x⟩ + b_i`. -/
def linearForward (weight : List (List ℚ)) (bias : List ℚ) (x : List ℚ) :
    List ℚ :=
  (weight.zip bias).map fun wb => dot wb.1 x + wb.2

/-- Embedding of `CategoricalPolicy.forward` (`policy.py:31-33`):
`logits = self._layer(x) / self._temperature` applied to each element of
the input batch, then `CategoricalDist(logits=logits)`. -/
def CategoricalPolicy.forward (p : CategoricalPolicy) (x : List (List ℚ)) :
    List CategoricalDist :=
  x.map fun xi =>
    { logits := (linearForward p.weight p.bias xi).map fun v =>
        v / p.temperature }

/-! ## Global logger lifecycle (`src/util.py:50-101`)

The `logger` class is process-global state: an `_enabled` flag, a log
directory, a WandB run id and a `_has_logged_data` flag.  We model the
class state explicitly and `enable`/`disable` as state transformers that
can raise `LoggerException`.  The WandB initialisation is external; its
assigned run name is passed in (the success path is modelled — the claims
below concern only the already-enabled/already-disabled branches, which the
Python code takes before touching WandB).
-/

/-- The errors raised by the logger lifecycle methods (`LoggerException`
with the respective messages at `util.py:87` and `util.py:101`). -/
inductive LoggerError where
  | alreadyEnabled
  | alreadyDisabled
deriving Repr, DecidableEq

/-- The class-level state of `util.logger`. -/
structure LoggerState where
  enabled : Bool
  logDir : Option String
  runId : Option String
  hasLoggedData : Bool
deriving Repr, DecidableEq

/-- `logger._LOG_BASE_DIR` (`util.py:53`). -/
def logBaseDir : String := "outputs"

namespace logger

/-- Embedding of `logger.enable` (`util.py:63-87`): if not enabled, set the
enabled flag, compute the log directory and initialise WandB (whose
assigned run name is `wandbRunName`); otherwise raise
"logger is already enabled". -/
def enable (wandbRunName : String) (st : LoggerState) (id : String) :
    Except LoggerError LoggerState :=
  if st.enabled = false then
    .ok { enabled := true
          logDir := some (logBaseDir ++ "/" ++ id)
          runId := some wandbRunName
          hasLoggedData := st.hasLoggedData }
  else
    .error .alreadyEnabled

/-- Embedding of `logger.disable` (`util.py:90-101`): if enabled, clear the
log directory, run id and data flag and drop the enabled flag; otherwise
raise "logger is already disabled". -/
def disable (st : LoggerState) : Except LoggerError LoggerState :=
  if st.enabled then
    .ok { enabled := false, logDir := none, runId := none,
          hasLoggedData := false }
  else
    .error .alreadyDisabled

end logger

/-! ## Inference instance lifecycle (`src/train/inference.py:37-41,169-174`) -/

/-- The error raised at `inference.py:41`: "Inference is already closed.". -/
inductive InferenceError where
  | alreadyClosed
deriving Repr, DecidableEq

/-- The lifecycle flag of an `Inference` instance (`self._enabled`,
`inference.py:37`). -/
structure InferenceHandle where
  enabled : Bool
deriving Repr, DecidableEq

namespace Inference

/-- Embedding of `Inference.close` (`inference.py:169-174`) as far as the
instance's own state is concerned: `self._enabled = False` (the environment
release and logger disabling act on collaborators). -/
def close (h : InferenceHandle) : InferenceHandle :=
  { h with enabled := false }

/-- Embedding of the guard at the top of `Inference.inference`
(`inference.py:39-41`): a call on a closed instance raises `RuntimeError`
before doing anything else. -/
def startInference (h : InferenceHandle) : Except InferenceError Unit :=
  if !h.enabled then .error .alreadyClosed else .ok ()

end Inference

/-! ## Unique-molecule tracking (`src/train/inference.py:202-208`)

`_update_n_unique_molecules` takes an optional list of newly observed
SMILES; with `None` it just reports the current count, otherwise it unions
the canonicalized forms into `self._canonical_smiles_set` and reports the
new count.  The external `canonicalize` collaborator ("canonicalize(
list_of_smiles) -> set_of_canonical_ids" per the spec) is a parameter.
-/

namespace Inference

/-- Embedding of `Inference._update_n_unique_molecules`
(`inference.py:202-208`), returning the updated canonical set together with
the returned count.  A `none` argument leaves the set untouched and reports
its size. -/
def updateNUniqueMolecules (canonicalize : List String → Finset String)
    (canonicalSmilesSet : Finset String)
    (newSmilesList : Option (List String)) : Finset String × Nat :=
  match newSmilesList with
  | none => (canonicalSmilesSet, canonicalSmilesSet.card)
  | some l =>
      let s := canonicalSmilesSet ∪ canonicalize l
      (s, s.card)

end Inference

/-! ## SELFIES/SMILES conversion (`src/util.py:446-453`) -/

/-- The `IndexError` raised by `smiles_or_selfies_list[0]` on an empty
list. -/
inductive PyIndexError where
  | indexError
deriving Repr, DecidableEq

/-- Python `s.count("[")`: the number of occurrences of the character `[`
in a string. -/
def countOpenBracket (s : String) : Nat :=
  s.toList.count (Char.ofNat 91)

/-- Embedding of `util.to_smiles` (`util.py:446-453`): if the FIRST element
of the list contains no `[` character, the input list is returned
unchanged; otherwise every element is decoded by the external SELFIES
decoder (`sf.decoder`, a parameter).  Indexing `[0]` into an empty list
raises `IndexError`. -/
def to_smiles (decoder : String → String) (l : List String) :
    Except PyIndexError (List String) :=
  match l with
  | [] => .error .indexError
  | s0 :: _ =>
      if countOpenBracket s0 = 0 then .ok l
      else .ok (l.map decoder)

/-! ## Step assembly in the running loop (`src/train/inference.py:63-88`)

Each loop iteration steps the vectorized environment and builds the
experience record.  The key numpy operation is the boolean-mask assignment
`real_next_obs[terminated] = real_final_next_obs` on a copy of `next_obs`:
positions whose mask entry is `True` are overwritten by the successive
elements of `real_final_next_obs` (whose length must equal the number of
`True` entries, else numpy raises).  The loop itself then continues from
the unmodified `next_obs` (`obs = next_obs`, line 88).
-/

/-- numpy boolean-mask assignment `xs[mask] = vals` on a copy of `xs`:
masked positions are replaced by the successive elements of `vals`.
Returns `none` when the lengths are inconsistent (numpy raises). -/
def maskedAssign {α : Type} : List α → List Bool → List α → Option (List α)
  | [], [], [] => some []
  | x :: xs, false :: ms, vs =>
      (maskedAssign xs ms vs).map fun r => x :: r
  | _ :: xs, true :: ms, v :: vs =>
      (maskedAssign xs ms vs).map fun r => v :: r
  | _, _, _ => none

/-- The number of `true` entries of a mask strictly before position `i`. -/
def trueCountBefore (mask : List Bool) (i : Nat) : Nat :=
  (mask.take i).count true

/-- What `Env.step` returns, as far as observation bookkeeping is
concerned: the auto-reset next observation per instance, the per-instance
terminated flags, and the true final observations of the instances that
terminated this step (in instance order). -/
structure EnvStepResult (O : Type) where
  nextObs : List O
  terminated : List Bool
  realFinalNextObs : List O

/-- The experience record fed to `Agent.update` (`drl.Experience`,
`inference.py:70-76`). -/
structure Experience (O A R : Type) where
  obs : List O
  action : A
  nextObs : List O
  reward : R
  terminated : List Bool

/-- Embedding of the experience assembly (`inference.py:66-76`):
`real_next_obs = next_obs.copy()`,
`real_next_obs[terminated] = real_final_next_obs`, then
`Experience(obs, action, real_next_obs, reward, terminated)`. -/
def assembleExperience {O A R : Type} (obs : List O) (action : A) (reward : R)
    (sr : EnvStepResult O) : Option (Experience O A R) :=
  (maskedAssign sr.nextObs sr.terminated sr.realFinalNextObs).map fun rno =>
    { obs := obs, action := action, nextObs := rno, reward := reward,
      terminated := sr.terminated }

/-- Embedding of `obs = next_obs` (`inference.py:88`): the observation the
loop continues from is the environment's auto-reset next observation, not
the corrected one. -/
def loopContinueObs {O : Type} (sr : EnvStepResult O) : List O :=
  sr.nextObs

theorem maskedAssign_isSome {α : Type} (xs : List α) (ms : List Bool)
    (vs : List α) (hm : ms.length = xs.length)
    (hv : vs.length = ms.count true) :
    ∃ r, maskedAssign xs ms vs = some r := by
  induction xs generalizing ms vs with
  | nil =>
    cases ms with
    | nil =>
      cases vs with
      | nil => exact ⟨[], rfl⟩
      | cons v vs => simp [List.count_nil] at hv
    | cons m ms => simp at hm
  | cons x xs ih =>
    cases ms with
    | nil => simp at hm
    | cons m ms =>
      have hm' : ms.length = xs.length := by simpa using hm
      cases m with
      | false =>
        have hv' : vs.length = ms.count true := by
          simpa [List.count_cons] using hv
        obtain ⟨r, hr⟩ := ih ms vs hm' hv'
        exact ⟨x :: r, by simp [maskedAssign, hr]⟩
      | true =>
        cases vs with
        | nil => simp [List.count_cons] at hv
        | cons v vs =>
          have hv' : vs.length = ms.count true := by
            simpa [List.count_cons] using hv
          obtain ⟨r, hr⟩ := ih ms vs hm' hv'
          exact ⟨v :: r, by simp [maskedAssign, hr]⟩

theorem maskedAssign_length {α : Type} (xs : List α) (ms : List Bool)
    (vs : List α) (r : List α) (h : maskedAssign xs ms vs = some r) :
    r.length = xs.length := by
  induction xs generalizing ms vs r with
  | nil =>
    cases ms with
    | nil =>
      cases vs with
      | nil => simp [maskedAssign] at h; simp [← h]
      | cons v vs => simp [maskedAssign] at h
    | cons m ms => simp [maskedAssign] at h
  | cons x xs ih =>
    cases ms with
    | nil => simp [maskedAssign] at h
    | cons m ms =>
      cases m with
      | false =>
        simp only [maskedAssign, Option.map_eq_some'] at h
        obtain ⟨r0, hr0, hr⟩ := h
        subst hr
        simpa using ih ms vs r0 hr0
      | true =>
        cases vs with
        | nil => simp [maskedAssign] at h
        | cons v vs =>
          simp only [maskedAssign, Option.map_eq_some'] at h
          obtain ⟨r0, hr0, hr⟩ := h
          subst hr
          simpa using ih ms vs r0 hr0

/-- The content of a successful masked assignment: non-masked positions
keep the original value; the position carrying the `k`-th `true` of the
mask receives the `k`-th replacement value. -/
theorem maskedAssign_getElem {α : Type} (xs : List α) (ms : List Bool)
    (vs : List α) (r : List α) (h : maskedAssign xs ms vs = some r)
    (i : Nat) :
    (ms[i]? = some false → r[i]? = xs[i]?) ∧
    (ms[i]? = some true → r[i]? = vs[trueCountBefore ms i]?) := by
  induction xs generalizing ms vs r i with
  | nil =>
    cases ms with
    | nil =>
      cases vs with
      | nil =>
        simp only [maskedAssign, Option.some_inj] at h
        subst h
        simp
      | cons v vs => simp [maskedAssign] at h
    | cons m ms => simp [maskedAssign] at h
  | cons x xs ih =>
    cases ms with
    | nil => simp [maskedAssign] at h
    | cons m ms =>
      cases m with
      | false =>
        simp only [maskedAssign, Option.map_eq_some'] at h
        obtain ⟨r0, hr0, hr⟩ := h
        subst hr
        cases i with
        | zero => simp [trueCountBefore]
        | succ i =>
          have := ih ms vs r0 hr0 i
          simpa [trueCountBefore, List.count_cons] using this
      | true =>
        cases vs with
        | nil => simp [maskedAssign] at h
        | cons v vs =>
          simp only [maskedAssign, Option.map_eq_some'] at h
          obtain ⟨r0, hr0, hr⟩ := h
          subst hr
          cases i with
          | zero => simp [trueCountBefore]
          | succ i =>
            have := ih ms vs r0 hr0 i
            constructor
            · intro hms
              have h1 := this.1 (by simpa using hms)
              simpa [trueCountBefore] using h1
            · intro hms
              have h2 := this.2 (by simpa using hms)
              simp only [List.getElem?_cons_succ]
              rw [h2]
              simp [trueCountBefore, List.count_cons]

/-! ## The per-episode metric table and pandas operations
(`src/train/inference.py:112-158`)

`metric_list_dict` becomes a `pandas.DataFrame`: one row per completed
episode, one column per metric name.  A row is modelled as an association
list from column name to cell value; a cell is a number, a string, or
missing (`NaN`/`None`).  `dropna` drops the rows containing a missing cell;
`mean(numeric_only=True)` averages the all-numeric columns.
-/

/-- A cell of the per-episode metric table: a numeric value, a string value
(e.g. the `smiles` column), or a missing value (`NaN`). -/
inductive MetricValue where
  | num (q : ℚ)
  | str (s : String)
  | missing
deriving Repr, DecidableEq

/-- One per-episode metric record: column name ↦ cell value. -/
abbrev MetricRow := List (String × MetricValue)

/-- The accumulated metric table, one row per completed episode in
completion order. -/
abbrev MetricTable := List MetricRow

def MetricValue.isMissing : MetricValue → Bool
  | .missing => true
  | _ => false

/-- Does the row contain a missing value in any column? -/
def rowHasMissing (r : MetricRow) : Bool :=
  r.any fun c => c.2.isMissing

/-- `DataFrame.dropna()`: keep the rows with no missing cell. -/
def dropna (t : MetricTable) : MetricTable :=
  t.filter fun r => !rowHasMissing r

/-- Value of the named column in a row. -/
def rowLookup (r : MetricRow) (name : String) : Option MetricValue :=
  (r.find? fun c => c.1 = name).map fun c => c.2

/-- Column names of the table (taken from its first row; the DataFrame
built from `metric_list_dict` has the same columns in every row). -/
def columnNames (t : MetricTable) : List String :=
  match t with
  | [] => []
  | r :: _ => r.map fun c => c.1

/-- The numeric values appearing in a column. -/
def colNumValues (t : MetricTable) (name : String) : List ℚ :=
  t.filterMap fun r =>
    match rowLookup r name with
    | some (.num q) => some q
    | _ => none

/-- A column counts as numeric for `mean(numeric_only=True)` when every
row holds a numeric value in it. -/
def colIsNumeric (t : MetricTable) (name : String) : Bool :=
  t.all fun r =>
    match rowLookup r name with
    | some (.num _) => true
    | _ => false

/-- Arithmetic mean of a list of rationals. -/
def listMean (l : List ℚ) : ℚ := l.sum / l.length

/-- `metric_df.mean(numeric_only=True)` (`inference.py:121`): column-wise
means over the numeric columns, in column order. -/
def columnMeans (t : MetricTable) : List (String × ℚ) :=
  ((columnNames t).filter fun n => colIsNumeric t n).map fun n =>
    (n, listMean (colNumValues t n))

/-- `metric_df["smiles"].tolist()` (`inference.py:123`) restricted to the
string cells (after `dropna` every cell is present). -/
def smilesColumn (t : MetricTable) : List String :=
  t.filterMap fun r =>
    match rowLookup r "smiles" with
    | some (.str s) => some s
    | _ => none

/-- The `score` cell of a row as a rational (the designated score metric;
used by `metric_df["score"].argmax()` at `inference.py:149`; on valid rows
the cell is numeric and the default is never taken). -/
def rowScore (r : MetricRow) : ℚ :=
  match rowLookup r "score" with
  | some (.num q) => q
  | _ => 0

/-! ## The MolMetric collaborator (external `metric` module) -/

/-- Modelled from the spec: the outcomes of the external `MolMetric`
chemistry-statistic computations ("calc_diversity(), calc_uniqueness(),
calc_novelty() -> float, each possibly failing with a value error when the
input set is degenerate").  `Except Unit ℚ` models a float result or a
raised `ValueError`.  `noveltyFn` additionally takes the reference set. -/
structure MolMetricOracle where
  diversityFn : List String → Except Unit ℚ
  uniquenessFn : List String → Except Unit ℚ
  noveltyFn : List String → List String → Except Unit ℚ

/-- Modelled from the spec: the state of `MolMetric().preprocess(...)` —
the generated SMILES and the optional reference set it was given. -/
structure MolMetric where
  smilesGenerated : List String
  smilesRefset : Option (List String)
deriving Repr, DecidableEq

/-- `MolMetric().preprocess(smiles_generated, smiles_refset=optional)`. -/
def MolMetric.preprocess (gen : List String) (ref : Option (List String)) :
    MolMetric :=
  { smilesGenerated := gen, smilesRefset := ref }

def MolMetric.calcDiversity (o : MolMetricOracle) (m : MolMetric) :
    Except Unit ℚ :=
  o.diversityFn m.smilesGenerated

def MolMetric.calcUniqueness (o : MolMetricOracle) (m : MolMetric) :
    Except Unit ℚ :=
  o.uniquenessFn m.smilesGenerated

/-- Modelled from the spec: "novelty requires the optional reference set;
if no reference set was supplied, compute diversity/uniqueness only" —
without a preprocessed reference set, `calc_novelty` raises `ValueError`. -/
def MolMetric.calcNovelty (o : MolMetricOracle) (m : MolMetric) :
    Except Unit ℚ :=
  match m.smilesRefset with
  | none => .error ()
  | some ref => o.noveltyFn m.smilesGenerated ref

/-- Embedding of the `try` block at `inference.py:131-136`: assign
`diversity`, then `uniqueness`, then `novelty` into the score row; the
first `ValueError` aborts the remaining assignments and is swallowed, so
the fields assigned before it are kept. -/
def tryMolMetrics (o : MolMetricOracle) (m : MolMetric)
    (avg : List (String × ℚ)) : List (String × ℚ) :=
  match MolMetric.calcDiversity o m with
  | .error _ => avg
  | .ok d =>
      let avg1 := avg ++ [("diversity", d)]
      match MolMetric.calcUniqueness o m with
      | .error _ => avg1
      | .ok u =>
          let avg2 := avg1 ++ [("uniqueness", u)]
          match MolMetric.calcNovelty o m with
          | .error _ => avg2
          | .ok nv => avg2 ++ [("novelty", nv)]

/-! ## Aggregation and reporting (`src/train/inference.py:112-158`) -/

/-- What the run persists and logs after the loop: the raw table written to
`inference/molecules.csv`, the one-row summary written to
`inference/metrics.csv`, the best row written to
`inference/best_molecule.csv`, and the logged messages.  `none` means the
file is never written. -/
structure InferenceOutput where
  logs : List String
  moleculesCsv : Option MetricTable
  metricsCsv : Option (List (String × ℚ))
  bestMoleculeCsv : Option MetricRow
deriving Repr, DecidableEq

namespace Inference

/-- Embedding of the aggregation and reporting tail of
`Inference.inference` (`inference.py:112-158`): truncate the accumulated
table to the episode target, `dropna` it, return early (writing nothing)
when no valid row remains, otherwise compute the column means, run the
metric collaborator with the `try`/`except ValueError` semantics, write the
truncated raw table, the summary row prefixed by `n_total`/`n_valid`/
`time`, and the first-argmax `score` row.  The top-50 image rendering only
produces a best-effort artifact and a log line and is not modelled. -/
def aggregateAndReport (o : MolMetricOracle)
    (refset : Option (List String)) (elapsedTime : ℚ) (nEpisodes : Nat)
    (table : MetricTable) : InferenceOutput :=
  let originalMetricDf := table.take nEpisodes
  let nTotal := originalMetricDf.length
  let metricDf := dropna originalMetricDf
  let nValid := metricDf.length
  if nValid = 0 then
    { logs := ["No valid molecule is generated."]
      moleculesCsv := none
      metricsCsv := none
      bestMoleculeCsv := none }
  else
    let avgScores := columnMeans metricDf
    let smilesList := smilesColumn metricDf
    let molMetric := MolMetric.preprocess smilesList refset
    let avgScores := tryMolMetrics o molMetric avgScores
    let summaryRow :=
      ("n_total", (nTotal : ℚ)) :: ("n_valid", (nValid : ℚ)) ::
        ("time", elapsedTime) :: avgScores
    let bestI := idxOfMax (metricDf.map rowScore)
    { logs := ["Calculating molecular metrics...",
               "===== Inference Result =====", "===== Best Molecule ====="]
      moleculesCsv := some originalMetricDf
      metricsCsv := some summaryRow
      bestMoleculeCsv := metricDf[bestI]? }

end Inference

/-! ## Concrete fixtures used by witnesses and counterexamples -/

/-- A fully valid metric row carrying a SMILES string and a score. -/
def mkRow (k : ℚ) : MetricRow := [("smiles", .str "C"), ("score", .num k)]

/-- A five-row, fully valid metric table (an episode target of 4 with a
synchronous overshoot to 5 completions). -/
def tbl5 : MetricTable := [mkRow 1, mkRow 2, mkRow 3, mkRow 4, mkRow 5]

/-- A metric-collaborator behaviour in which every statistic raises
`ValueError`. -/
def oracle0 : MolMetricOracle :=
  { diversityFn := fun _ => .error ()
    uniquenessFn := fun _ => .error ()
    noveltyFn := fun _ _ => .error () }

/-- A metric-collaborator behaviour in which diversity and uniqueness
succeed. -/
def oracleOk : MolMetricOracle :=
  { diversityFn := fun _ => .ok 1
    uniquenessFn := fun _ => .ok (1/2)
    noveltyFn := fun _ _ => .ok 0 }

/-- A single-row table whose only row has a missing metric value. -/
def tblMissing : MetricTable :=
  [[("smiles", .missing), ("score", .num 1)]]

/-! ## Claim theorems -/

/-- C1: the claim states that `CategoricalPolicy.__init__` rejects every
temperature ≤ 0 so that `forward` can never divide by zero.  The
constructor body (`policy.py:10-29`) performs no validation at all: it
stores the temperature as given, and construction succeeds at the failing
input `temperature = 0` (after which `forward` divides the linear scores
by zero).  This theorem evaluates the embedded constructor at that input:
construction is accepted, not rejected. -/
theorem c1_init_accepts_zero_temperature (weight : List (List ℚ))
    (bias : List ℚ) :
    CategoricalPolicy.init weight bias 0 =
      .ok { weight := weight, bias := bias, temperature := 0 } := rfl

/-- C3: for every input feature batch and every temperature t > 0, the
categorical distribution returned by `CategoricalPolicy.forward` (logits
`Linear(x)/t`) has, per batch element, the same argmax over actions as the
distribution built from the raw logits `Linear(x)`. -/
theorem c3_temperature_preserves_argmax (p : CategoricalPolicy)
    (x : List (List ℚ)) (h : 0 < p.temperature) :
    (p.forward x).map CategoricalDist.argmaxAction =
      x.map fun xi =>
        CategoricalDist.argmaxAction
          { logits := linearForward p.weight p.bias xi } := by
  unfold CategoricalPolicy.forward
  rw [List.map_map]
  refine List.map_congr_left fun xi _ => ?_
  unfold CategoricalDist.argmaxAction
  exact idxOfMax_map_strictMono _
    (fun a b hab => by exact div_lt_div_of_pos_right hab h) _

/-- A fixed policy with temperature 2 used to witness C3. -/
def polC3 : CategoricalPolicy :=
  { weight := [[1, 0], [0, 1], [1, 1]], bias := [0, 0, 0], temperature := 2 }

/-- Witness for C3 at a concrete policy and batch. -/
theorem c3_temperature_preserves_argmax_witness :
    0 < polC3.temperature ∧
    (polC3.forward [[1, 5], [7, 2]]).map CategoricalDist.argmaxAction =
      [[1, 5], [7, 2]].map (fun xi =>
        CategoricalDist.argmaxAction
          { logits := linearForward polC3.weight polC3.bias xi }) :=
  ⟨by norm_num [polC3],
   c3_temperature_preserves_argmax polC3 [[1, 5], [7, 2]]
     (by norm_num [polC3])⟩

/-- C6: each re-entrancy misuse raises: starting inference on a closed
`Inference` instance raises `RuntimeError` (`inference.py:39-41`), enabling
the already-enabled logger raises `LoggerException` (`util.py:87`), and
disabling the already-disabled logger raises `LoggerException`
(`util.py:101`).  None of the three errors is swallowed: each call returns
the error instead of a successor state. -/
theorem c6_reentrancy_errors (h : InferenceHandle) (d r : Option String)
    (b b2 : Bool) (wandbRunName id : String) :
    Inference.startInference (Inference.close h) = .error .alreadyClosed ∧
    logger.enable wandbRunName
      { enabled := true, logDir := d, runId := r, hasLoggedData := b } id =
        .error .alreadyEnabled ∧
    logger.disable
      { enabled := false, logDir := d, runId := r, hasLoggedData := b2 } =
        .error .alreadyDisabled :=
  ⟨rfl, rfl, rfl⟩

/-- C7: over a run the canonical molecule identity set only grows: each
`_update_n_unique_molecules` call returns a set containing the previous one
(so its size is monotonically non-decreasing and never reset), the returned
count is the size of the updated set, and inserting the canonicalizations
of the same SMILES list a second time leaves the set and the unique count
unchanged. -/
theorem c7_unique_set_monotone_idempotent
    (canonicalize : List String → Finset String) (s : Finset String)
    (l : List String) (q : Option (List String)) :
    s ⊆ (Inference.updateNUniqueMolecules canonicalize s q).1 ∧
    s.card ≤ (Inference.updateNUniqueMolecules canonicalize s q).2 ∧
    (Inference.updateNUniqueMolecules canonicalize s q).2 =
      (Inference.updateNUniqueMolecules canonicalize s q).1.card ∧
    Inference.updateNUniqueMolecules canonicalize
        (Inference.updateNUniqueMolecules canonicalize s (some l)).1
        (some l) =
      ((Inference.updateNUniqueMolecules canonicalize s (some l)).1,
        (Inference.updateNUniqueMolecules canonicalize s (some l)).2) := by
  refine ⟨?_, ?_, ?_, ?_⟩
  · cases q with
    | none => exact Finset.Subset.refl s
    | some l2 => exact Finset.subset_union_left
  · cases q with
    | none => exact le_refl _
    | some l2 => exact Finset.card_le_card Finset.subset_union_left
  · cases q <;> rfl
  · simp [Inference.updateNUniqueMolecules, Finset.union_assoc]

/-- C10: `to_smiles` inspects only the first element of its input: for
every non-empty list whose first element contains no `[` character it
returns the input unchanged (no element is decoded, whatever the decoder
does and even if later elements are SELFIES), and on the empty list it
raises `IndexError` instead of returning an empty list. -/
theorem c10_to_smiles_first_element (decoder : String → String)
    (s0 : String) (rest : List String) (h : countOpenBracket s0 = 0) :
    to_smiles decoder (s0 :: rest) = .ok (s0 :: rest) ∧
    to_smiles decoder ([] : List String) = .error .indexError := by
  constructor
  · simp [to_smiles, h]
  · rfl

/-- Witness for C10: a SMILES head followed by a SELFIES tail is returned
unchanged. -/
theorem c10_to_smiles_first_element_witness :
    countOpenBracket "CCO" = 0 ∧
    (to_smiles (fun s => s) ("CCO" :: ["[C][C]"]) = .ok ("CCO" :: ["[C][C]"]) ∧
     to_smiles (fun s => s) ([] : List String) = .error .indexError) :=
  ⟨by decide, c10_to_smiles_first_element (fun s => s) "CCO" ["[C][C]"]
    (by decide)⟩

/-- C2 counterexample: the claim states `inference/molecules.csv` contains
every produced row including overshoot rows (5 rows when the target is 4).
On the concrete five-row table with episode target 4, the code truncates
the table (`inference.py:113`) before writing `molecules.csv`
(`inference.py:139`): the raw export holds 4 rows, not 5. -/
theorem c2_counterexample :
    tbl5.length = 5 ∧
    ((Inference.aggregateAndReport oracle0 none 0 4 tbl5).moleculesCsv).map
        List.length = some 4 :=
  ⟨rfl, rfl⟩

/-- C2 (amended): `inference/molecules.csv` receives exactly the first
episode-target rows of the produced table — overshoot rows are dropped from
the raw export as well — and the aggregate statistics in
`inference/metrics.csv` are derived from exactly those first episode-target
rows (replacing the table by its first-target prefix leaves the summary
unchanged). -/
theorem c2_raw_export_truncated (o : MolMetricOracle)
    (refset : Option (List String)) (e : ℚ) (n : Nat) (table : MetricTable)
    (h : dropna (table.take n) ≠ []) :
    (Inference.aggregateAndReport o refset e n table).moleculesCsv =
      some (table.take n) ∧
    (Inference.aggregateAndReport o refset e n table).metricsCsv =
      (Inference.aggregateAndReport o refset e n (table.take n)).metricsCsv := by
  have hne : ¬ (dropna (table.take n)).length = 0 := by
    simpa [List.length_eq_zero] using h
  have htt : (table.take n).take n = table.take n := by
    rw [List.take_take, min_self]
  constructor
  · simp [Inference.aggregateAndReport, hne]
  · simp [Inference.aggregateAndReport, htt, hne]

/-- Witness for the amended C2 at the concrete overshoot table. -/
theorem c2_raw_export_truncated_witness :
    dropna (tbl5.take 4) ≠ [] ∧
    ((Inference.aggregateAndReport oracle0 none 0 4 tbl5).moleculesCsv =
        some (tbl5.take 4) ∧
      (Inference.aggregateAndReport oracle0 none 0 4 tbl5).metricsCsv =
        (Inference.aggregateAndReport oracle0 none 0 4
            (tbl5.take 4)).metricsCsv) :=
  ⟨by decide, c2_raw_export_truncated oracle0 none 0 4 tbl5 (by decide)⟩

/-- C4: if after truncation to the episode target every metric row contains
a missing value, the run logs "No valid molecule is generated." and returns
before writing anything: no `metrics.csv`, no `best_molecule.csv`, and —
because the early return at `inference.py:117-119` precedes the raw export
at `inference.py:139` — no `molecules.csv` either. -/
theorem c4_zero_valid_rows (o : MolMetricOracle)
    (refset : Option (List String)) (e : ℚ) (n : Nat) (table : MetricTable)
    (h : ∀ r ∈ table.take n, rowHasMissing r = true) :
    Inference.aggregateAndReport o refset e n table =
      { logs := ["No valid molecule is generated."]
        moleculesCsv := none
        metricsCsv := none
        bestMoleculeCsv := none } := by
  have hd : dropna (table.take n) = [] := by
    unfold dropna
    refine List.filter_eq_nil_iff.mpr fun r hr => ?_
    simp [h r hr]
  simp [Inference.aggregateAndReport, hd]

/-- Witness for C4 at a single all-missing row. -/
theorem c4_zero_valid_rows_witness :
    (∀ r ∈ tblMissing.take 1, rowHasMissing r = true) ∧
    Inference.aggregateAndReport oracle0 none 0 1 tblMissing =
      { logs := ["No valid molecule is generated."]
        moleculesCsv := none
        metricsCsv := none
        bestMoleculeCsv := none } :=
  ⟨by decide, c4_zero_valid_rows oracle0 none 0 1 tblMissing (by decide)⟩

/-- C5: with no reference molecule set, whenever the diversity and
uniqueness computations succeed the summary row written to `metrics.csv`
is exactly the per-metric means extended by a `diversity` and a
`uniqueness` field — never a `novelty` field, because `calc_novelty`
raises `ValueError` without a reference set and the `try` block at
`inference.py:131-136` absorbs it, keeping the already-assigned fields and
continuing the run (the summary is still written). -/
theorem c5_no_refset_metrics_fields (o : MolMetricOracle) (e : ℚ) (n : Nat)
    (table : MetricTable) (d u : ℚ)
    (hvalid : dropna (table.take n) ≠ [])
    (hd : o.diversityFn (smilesColumn (dropna (table.take n))) = .ok d)
    (hu : o.uniquenessFn (smilesColumn (dropna (table.take n))) = .ok u) :
    (Inference.aggregateAndReport o none e n table).metricsCsv =
      some (("n_total", ((table.take n).length : ℚ)) ::
        ("n_valid", ((dropna (table.take n)).length : ℚ)) ::
        ("time", e) ::
        (columnMeans (dropna (table.take n)) ++
          [("diversity", d), ("uniqueness", u)])) := by
  have hne : ¬ (dropna (table.take n)).length = 0 := by
    simpa [List.length_eq_zero] using hvalid
  simp [Inference.aggregateAndReport, hne, tryMolMetrics,
    MolMetric.calcDiversity, MolMetric.calcUniqueness, MolMetric.calcNovelty,
    MolMetric.preprocess, hd, hu]

/-- Witness for C5 at the concrete table and a succeeding collaborator. -/
theorem c5_no_refset_metrics_fields_witness :
    dropna (tbl5.take 4) ≠ [] ∧
    oracleOk.diversityFn (smilesColumn (dropna (tbl5.take 4))) = .ok 1 ∧
    oracleOk.uniquenessFn (smilesColumn (dropna (tbl5.take 4))) =
      .ok (1/2) ∧
    (Inference.aggregateAndReport oracleOk none 0 4 tbl5).metricsCsv =
      some (("n_total", ((tbl5.take 4).length : ℚ)) ::
        ("n_valid", ((dropna (tbl5.take 4)).length : ℚ)) ::
        ("time", 0) ::
        (columnMeans (dropna (tbl5.take 4)) ++
          [("diversity", 1), ("uniqueness", 1/2)])) :=
  ⟨by decide, rfl, rfl,
   c5_no_refset_metrics_fields oracleOk 0 4 tbl5 1 (1/2) (by decide) rfl rfl⟩

/-- The `best_molecule.csv` artifact as a function of the valid rows: the
row at the first-occurrence argmax of the `score` column. -/
theorem aggregate_bestMoleculeCsv (o : MolMetricOracle)
    (refset : Option (List String)) (e : ℚ) (n : Nat) (table : MetricTable)
    (h : dropna (table.take n) ≠ []) :
    (Inference.aggregateAndReport o refset e n table).bestMoleculeCsv =
      (dropna (table.take n))[idxOfMax
        ((dropna (table.take n)).map rowScore)]? := by
  have hne : ¬ (dropna (table.take n)).length = 0 := by
    simpa [List.length_eq_zero] using h
  simp [Inference.aggregateAndReport, hne]

/-- C8: the single row persisted to `best_molecule.csv` is the valid
(no-missing-value) row maximizing the `score` metric, ties broken by first
occurrence: every valid row scores at most the persisted row, and every
valid row strictly before it scores strictly less. -/
theorem c8_best_row_first_argmax (o : MolMetricOracle)
    (refset : Option (List String)) (e : ℚ) (n : Nat) (table : MetricTable)
    (h : dropna (table.take n) ≠ []) :
    ∃ (i : Nat) (hi : i < (dropna (table.take n)).length),
      i = idxOfMax ((dropna (table.take n)).map rowScore) ∧
      (Inference.aggregateAndReport o refset e n table).bestMoleculeCsv =
        some ((dropna (table.take n))[i]) ∧
      (∀ j (hj : j < (dropna (table.take n)).length),
        rowScore ((dropna (table.take n))[j]) ≤
          rowScore ((dropna (table.take n))[i])) ∧
      ∀ j (hj : j < i),
        rowScore ((dropna (table.take n)).get ⟨j, Nat.lt_trans hj hi⟩) <
          rowScore ((dropna (table.take n))[i]) := by
  have hmapne : (dropna (table.take n)).map rowScore ≠ [] := by
    simpa using h
  have hlt : idxOfMax ((dropna (table.take n)).map rowScore) <
      ((dropna (table.take n)).map rowScore).length :=
    idxOfMax_lt _ hmapne
  have hlen : ((dropna (table.take n)).map rowScore).length =
      (dropna (table.take n)).length := List.length_map _ _
  have hi : idxOfMax ((dropna (table.take n)).map rowScore) <
      (dropna (table.take n)).length := by
    rw [← hlen]; exact hlt
  refine ⟨idxOfMax ((dropna (table.take n)).map rowScore), hi, rfl, ?_, ?_, ?_⟩
  · rw [aggregate_bestMoleculeCsv o refset e n table h]
    exact List.getElem?_eq_getElem hi
  · intro j hj
    have hjm : j < ((dropna (table.take n)).map rowScore).length := by
      rw [hlen]; exact hj
    have := idxOfMax_is_max ((dropna (table.take n)).map rowScore) j hjm hlt
    simpa [List.getElem_map] using this
  · intro j hj
    have := idxOfMax_first ((dropna (table.take n)).map rowScore) j hj hlt
    simpa [List.getElem_map] using this

/-- Witness for C8 at the concrete overshoot table (the best of the first
four rows is the fourth, with score 4). -/
theorem c8_best_row_first_argmax_witness :
    dropna (tbl5.take 4) ≠ [] ∧
    ∃ (i : Nat) (hi : i < (dropna (tbl5.take 4)).length),
      i = idxOfMax ((dropna (tbl5.take 4)).map rowScore) ∧
      (Inference.aggregateAndReport oracle0 none 0 4 tbl5).bestMoleculeCsv =
        some ((dropna (tbl5.take 4))[i]) ∧
      (∀ j (hj : j < (dropna (tbl5.take 4)).length),
        rowScore ((dropna (tbl5.take 4))[j]) ≤
          rowScore ((dropna (tbl5.take 4))[i])) ∧
      ∀ j (hj : j < i),
        rowScore ((dropna (tbl5.take 4)).get ⟨j, Nat.lt_trans hj hi⟩) <
          rowScore ((dropna (tbl5.take 4))[i]) :=
  ⟨by decide, c8_best_row_first_argmax oracle0 none 0 4 tbl5 (by decide)⟩

/-- C9: for every environment step, the experience record fed to
`Agent.update` uses as its next-observation the true final observation for
every instance whose terminated flag is set (the `k`-th terminated instance
receiving the `k`-th true final observation) and the regular next
observation for every other instance, while the loop itself continues from
the environment's auto-reset next observation. -/
theorem c9_experience_next_obs {O A R : Type} (obs : List O) (action : A)
    (reward : R) (sr : EnvStepResult O)
    (hm : sr.terminated.length = sr.nextObs.length)
    (hv : sr.realFinalNextObs.length = sr.terminated.count true) :
    ∃ exp : Experience O A R,
      assembleExperience obs action reward sr = some exp ∧
      exp.nextObs.length = sr.nextObs.length ∧
      (∀ i : Nat, sr.terminated[i]? = some true →
        exp.nextObs[i]? =
          sr.realFinalNextObs[trueCountBefore sr.terminated i]?) ∧
      (∀ i : Nat, sr.terminated[i]? = some false →
        exp.nextObs[i]? = sr.nextObs[i]?) ∧
      loopContinueObs sr = sr.nextObs := by
  obtain ⟨r, hr⟩ :=
    maskedAssign_isSome sr.nextObs sr.terminated sr.realFinalNextObs hm hv
  refine ⟨{ obs := obs, action := action, nextObs := r, reward := reward,
            terminated := sr.terminated }, ?_, ?_, ?_, ?_, rfl⟩
  · simp [assembleExperience, hr]
  · exact maskedAssign_length _ _ _ _ hr
  · intro i hi
    exact (maskedAssign_getElem _ _ _ _ hr i).2 hi
  · intro i hi
    exact (maskedAssign_getElem _ _ _ _ hr i).1 hi

/-- A concrete three-instance step in which instances 0 and 2 terminate. -/
def sr9 : EnvStepResult Nat :=
  { nextObs := [10, 20, 30], terminated := [true, false, true],
    realFinalNextObs := [100, 300] }

/-- Witness for C9 at the concrete step. -/
theorem c9_experience_next_obs_witness :
    sr9.terminated.length = sr9.nextObs.length ∧
    sr9.realFinalNextObs.length = sr9.terminated.count true ∧
    ∃ exp : Experience Nat Nat Nat,
      assembleExperience [1, 2, 3] 7 5 sr9 = some exp ∧
      exp.nextObs.length = sr9.nextObs.length ∧
      (∀ i : Nat, sr9.terminated[i]? = some true →
        exp.nextObs[i]? =
          sr9.realFinalNextObs[trueCountBefore sr9.terminated i]?) ∧
      (∀ i : Nat, sr9.terminated[i]? = some false →
        exp.nextObs[i]? = sr9.nextObs[i]?) ∧
      loopContinueObs sr9 = sr9.nextObs :=
  ⟨rfl, rfl, c9_experience_next_obs [1, 2, 3] 7 5 sr9 rfl rfl⟩

end MolAir
